import Mathlib

set_option maxHeartbeats 1000000
set_option maxRecDepth 100000

/-
Verification development for the image_translate repository (src/app.py).

The program is a batch image-translation pipeline: it base64-encodes each
uploaded image, posts it to an external generation API, searches the JSON
reply for an embedded image payload, decodes it, writes the result file,
and records one ledger row per file plus one session row per batch.

The embedding below translates the pure/algorithmic parts of src/app.py
directly; effectful collaborators (file system, HTTP transport, clock,
environment variables) are passed in explicitly as functions, and the
SQLite ledger is modelled as in-memory lists of rows.
-/

namespace ImageTranslate

/-! ## JSON-like trees

Python's decoded JSON values (dicts, lists, scalars) are modelled as a
mutual inductive so that all recursions over them are structural.  Object
fields keep their stored order, mirroring Python dict iteration order. -/

mutual

inductive JValue : Type where
  | str (s : String)
  | num (n : Int)
  | jbool (b : Bool)
  | null
  | arr (xs : JList)
  | obj (kvs : JObj)
deriving DecidableEq

inductive JList : Type where
  | nil
  | cons (hd : JValue) (tl : JList)
deriving DecidableEq

inductive JObj : Type where
  | nil
  | cons (k : String) (v : JValue) (tl : JObj)
deriving DecidableEq

end

/-- Key lookup in an object, first occurrence wins (Python dicts have
unique keys, so this matches `node["k"]` / `node.get("k")`). -/
def JObj.lookup : JObj → String → Option JValue
  | .nil, _ => none
  | .cons k v t, key => if k = key then some v else JObj.lookup t key

/-- Convenience constructor for object literals. -/
def JObj.ofList : List (String × JValue) → JObj
  | [] => .nil
  | (k, v) :: xs => .cons k v (JObj.ofList xs)

/-- Convenience constructor for array literals. -/
def JList.ofList : List JValue → JList
  | [] => .nil
  | x :: xs => .cons x (JList.ofList xs)

/-! ## Response extractor (src/app.py lines 67-88)

`walk` is the inner recursive function of `extract_image_from_response`,
translated clause by clause.  The mime value returned is kept as a raw
`JValue` because the source's `inline.get("mime_type", "image/png")` does
not check that the stored mime value is a string.  The Python idiom
`found = walk(v); if found: return found` (a 2-tuple is always truthy)
is rendered by the combinator `orElseO`. -/

/-- Return the first operand when it hits, otherwise the second. -/
def orElseO (a : Option α) (b : Option α) : Option α :=
  match a with
  | some r => some r
  | none => b

/-- Lines 70-75 of src/app.py: the `inline_data` test of `walk` — the node
has an `inline_data` member that is a map, whose `data` field is a string;
the mime type is the map's `mime_type` value, defaulting to `"image/png"`.
This is also shape (a) of the spec (section 4.2). -/
def inlineShape (kvs : JObj) : Option (JValue × String) :=
  match JObj.lookup kvs "inline_data" with
  | some (.obj inkvs) =>
    (match JObj.lookup inkvs "data" with
     | some (.str d) =>
       some ((JObj.lookup inkvs "mime_type").getD (.str "image/png"), d)
     | _ => none)
  | _ => none

/-- Lines 76-77 of src/app.py: the direct `data` test of `walk` — the node
has a string-valued `data` field of length strictly greater than 100, with
the mime type defaulting as above.  This is also shape (b) of the spec. -/
def matchDataField (kvs : JObj) : Option (JValue × String) :=
  match JObj.lookup kvs "data" with
  | some (.str d) =>
    if d.length > 100 then
      some ((JObj.lookup kvs "mime_type").getD (.str "image/png"), d)
    else none
  | _ => none

mutual

/-- Translation of `walk` in `extract_image_from_response`: at a dict,
first test the `inline_data` shape, then the long-string `data` shape,
then recurse into the values in stored order; at a list recurse into the
elements in index order; scalars never match. -/
def walk : JValue → Option (JValue × String)
  | .obj kvs => orElseO (inlineShape kvs) (orElseO (matchDataField kvs) (walkObj kvs))
  | .arr xs => walkList xs
  | .str _ => none
  | .num _ => none
  | .jbool _ => none
  | .null => none

/-- The `for v in node.values()` loop of `walk`: return the first
recursive hit over the object's values in stored order. -/
def walkObj : JObj → Option (JValue × String)
  | .nil => none
  | .cons _ v t => orElseO (walk v) (walkObj t)

/-- The `for item in node` loop of `walk`: return the first recursive hit
over the list elements in index order. -/
def walkList : JList → Option (JValue × String)
  | .nil => none
  | .cons v t => orElseO (walk v) (walkList t)

end

/-- Translation of `extract_image_from_response` (src/app.py line 67). -/
def extract_image_from_response (payload : JValue) : Option (JValue × String) :=
  walk payload

/-! ## Spec-side model of the extractor (for the refinement claim)

The spec describes the extractor as: enumerate the tree depth-first
pre-order and return the first node matching shape (a) or shape (b).
`nodes` and `matchNode` below follow the spec's words; the theorem for C2
relates them to the source translation `walk`. -/

/-- Modelled from the spec (section 4.2): whether a single node matches
shape (a) (`inlineShape`) or else shape (b) (`matchDataField`).  Non-map
nodes never match. -/
def matchNode : JValue → Option (JValue × String)
  | .obj kvs => orElseO (inlineShape kvs) (matchDataField kvs)
  | _ => none

mutual

/-- Modelled from the spec (section 4.2): the depth-first pre-order
enumeration of a tree's nodes, a map's values in stored order and a
sequence's elements in index order. -/
def nodes : JValue → List JValue
  | .obj kvs => .obj kvs :: nodesObj kvs
  | .arr xs => .arr xs :: nodesList xs
  | .str s => [.str s]
  | .num n => [.num n]
  | .jbool b => [.jbool b]
  | .null => [.null]

/-- Pre-order enumeration of all nodes under an object's values. -/
def nodesObj : JObj → List JValue
  | .nil => []
  | .cons _ v t => nodes v ++ nodesObj t

/-- Pre-order enumeration of all nodes under a sequence's elements. -/
def nodesList : JList → List JValue
  | .nil => []
  | .cons v t => nodes v ++ nodesList t

end

/-- First hit of `f` over a list, in order. -/
def firstSome (f : α → Option β) : List α → Option β
  | [] => none
  | x :: xs => orElseO (f x) (firstSome f xs)

/-! ## Concrete example trees for the extractor claims -/

/-- The spec example `{"a": {"inline_data": {"data": "XYZ...", "mime_type": "image/png"}}}`. -/
def exampleInline : JValue :=
  .obj (JObj.ofList [("a", .obj (JObj.ofList
    [("inline_data", .obj (JObj.ofList
      [("data", .str "XYZ..."), ("mime_type", .str "image/png")]))]))])

/-- The 150-character string of the spec example, `"A"*150`. -/
def longAString : String := String.mk (List.replicate 150 'A')

/-- The spec example `{"x": [1, {"data": "A"*150}]}`. -/
def exampleDataField : JValue :=
  .obj (JObj.ofList [("x", .arr (JList.ofList
    [.num 1, .obj (JObj.ofList [("data", .str longAString)])]))])

/-- A single node matching both shapes: a long string `data` field (listed
first in stored order) and an `inline_data` member with a string payload. -/
def exampleBothShapes : JValue :=
  .obj (JObj.ofList
    [("data", .str longAString),
     ("inline_data", .obj (JObj.ofList
       [("data", .str "INLINEPAYLOAD"), ("mime_type", .str "image/webp")]))])

/-- A node whose `inline_data` member has a non-string `data` field, plus
a long string `data` field of its own. -/
def exampleInlineNotString : JValue :=
  .obj (JObj.ofList
    [("inline_data", .obj (JObj.ofList [("data", .num 5)])),
     ("data", .str longAString)])

/-! ## Codec utilities (src/app.py lines 52-65 and 117-121)

File paths, extensions and mime guessing.  `mimetypes.guess_type` and the
`pathlib` name/stem accessors are Python standard-library collaborators;
they are modelled here by their documented extension-table semantics. -/

/-- Models `pathlib.Path(p).name` for paths without a trailing slash: the
part after the last `/`. -/
def pathName (p : String) : String :=
  String.mk ((p.data.reverse.takeWhile (fun c => c ≠ '/')).reverse)

/-- Lower-casing over the underlying character list (models Python's
`str.lower` on the ASCII mime/extension strings used here). -/
def strToLower (s : String) : String := String.mk (s.data.map Char.toLower)

/-- Prefix test over the underlying character lists (models Python's
`str.startswith`). -/
def strStartsWith (s t : String) : Bool := List.isPrefixOf t.data s.data

/-- Models a slice of the Python stdlib `mimetypes.types_map` extension
table, covering the extensions exercised in this development. -/
def typesMap : List (String × String) :=
  [(".png", "image/png"), (".jpg", "image/jpeg"), (".jpeg", "image/jpeg"),
   (".gif", "image/gif"), (".webp", "image/webp"), (".bmp", "image/bmp"),
   (".tif", "image/tiff"), (".tiff", "image/tiff"), (".heic", "image/heic"),
   (".txt", "text/plain"), (".html", "text/html"), (".pdf", "application/pdf"),
   (".json", "application/json"), (".mp4", "video/mp4"), (".csv", "text/csv")]

/-- Models the extension part of `posixpath.splitext`: the suffix of the
base name from its last dot, empty when there is no dot after a non-dot
character (leading dots never start an extension). -/
def splitextExt (p : String) : String :=
  let name := (pathName p).data
  match name.reverse.findIdx? (fun c => c = '.') with
  | none => ""
  | some j =>
    let i := name.length - 1 - j
    if (name.take i).any (fun c => c ≠ '.') then String.mk (name.drop i) else ""

/-- Models Python's `mimetypes.guess_type`: look the lower-cased extension
up in the types table; `none` when there is no extension or no entry. -/
def mimetypes_guess_type (p : String) : Option String :=
  let ext := strToLower (splitextExt p)
  if ext = "" then none else List.lookup ext typesMap

/-- Translation of `guess_mime_type` (src/app.py lines 52-58): fall back
to `"image/jpeg"` when inference fails or yields a non-image type. -/
def guess_mime_type (file_path : String) : String :=
  match mimetypes_guess_type file_path with
  | none => "image/jpeg"
  | some mt => if ¬ strStartsWith mt "image/" then "image/jpeg" else mt

/-! ## Base64 (Python `base64.b64encode` / `base64.b64decode`)

Bytes are numbers below 256; the encoder consumes three bytes per four
output characters with `=` padding, the decoder is its partial inverse
(`none` on input it rejects). -/

/-- The standard base64 alphabet character for a 6-bit value. -/
def encChar (n : Nat) : Char :=
  if n < 26 then Char.ofNat (65 + n)
  else if n < 52 then Char.ofNat (97 + (n - 26))
  else if n < 62 then Char.ofNat (48 + (n - 52))
  else if n = 62 then '+'
  else '/'

/-- Partial inverse of `encChar`; `none` outside the alphabet. -/
def decChar (c : Char) : Option Nat :=
  let n := c.toNat
  if 65 ≤ n ∧ n ≤ 90 then some (n - 65)
  else if 97 ≤ n ∧ n ≤ 122 then some (26 + (n - 97))
  else if 48 ≤ n ∧ n ≤ 57 then some (52 + (n - 48))
  else if n = 43 then some 62
  else if n = 47 then some 63
  else none

/-- Models Python's `base64.b64encode` on a byte list: three bytes become
four alphabet characters; a final one- or two-byte group is padded with
`=`. -/
def b64encodeChars : List Nat → List Char
  | [] => []
  | [a] => [encChar (a / 4), encChar (a % 4 * 16), '=', '=']
  | [a, b] => [encChar (a / 4), encChar (a % 4 * 16 + b / 16), encChar (b % 16 * 4), '=']
  | a :: b :: c :: rest =>
    encChar (a / 4) :: encChar (a % 4 * 16 + b / 16) :: encChar (b % 16 * 4 + c / 64)
      :: encChar (c % 64) :: b64encodeChars rest

/-- Models Python's `base64.b64decode` on well-formed input: consume four
characters per three bytes, honouring `=` padding on the final group;
`none` on input it rejects. -/
def b64decodeChars : List Char → Option (List Nat)
  | [] => some []
  | w :: x :: y :: z :: rest =>
    (match decChar w, decChar x with
     | some dw, some dx =>
       if y = '=' then
         (if z = '=' ∧ rest = [] then some [dw * 4 + dx / 16] else none)
       else
         (match decChar y with
          | some dy =>
            if z = '=' then
              (if rest = [] then some [dw * 4 + dx / 16, dx % 16 * 16 + dy / 4] else none)
            else
              (match decChar z with
               | some dz =>
                 (match b64decodeChars rest with
                  | some bs =>
                    some ((dw * 4 + dx / 16) :: (dx % 16 * 16 + dy / 4)
                      :: (dy % 4 * 64 + dz) :: bs)
                  | none => none)
               | none => none)
          | none => none)
     | _, _ => none)
  | _ => none

/-- Base64 text produced from a byte list, as a string. -/
def b64encode (bs : List Nat) : String := String.mk (b64encodeChars bs)

/-- Byte list recovered from base64 text. -/
def b64decode (s : String) : Option (List Nat) := b64decodeChars s.data

/-- Translation of `image_file_to_b64` (src/app.py lines 60-65): read the
file's bytes through the supplied file system, pair the guessed mime type
with the base64 text.  `fs` stands for `open(file_path, "rb").read()`. -/
def image_file_to_b64 (fs : String → Except String (List Nat)) (file_path : String) :
    Except String (String × String) :=
  match fs file_path with
  | .error e => .error e
  | .ok data => .ok (guess_mime_type file_path, b64encode data)

/-! ## Remaining pure helpers of the pipeline -/

/-- Models `pathlib.Path(name).stem`: the name with its final extension
removed; unchanged when the last dot is leading or trailing. -/
def pathStem (name : String) : String :=
  let cs := name.data
  match cs.reverse.findIdx? (fun c => c = '.') with
  | none => name
  | some j =>
    let i := cs.length - 1 - j
    if 0 < i ∧ i < cs.length - 1 then String.mk (cs.take i) else name

/-- Translation of `ext_from_mime` (src/app.py lines 129-138): fixed
lookup on the lower-cased mime string, defaulting to `".png"`. -/
def ext_from_mime (mime : String) : String :=
  let m := strToLower mime
  if m = "image/jpeg" then ".jpg"
  else if m = "image/jpg" then ".jpg"
  else if m = "image/png" then ".png"
  else if m = "image/webp" then ".webp"
  else if m = "image/gif" then ".gif"
  else if m = "image/heic" then ".heic"
  else ".png"

/-- Models Python's `str.strip`: drop whitespace from both ends. -/
def pystrip (s : String) : String :=
  String.mk (((s.data.dropWhile Char.isWhitespace).reverse.dropWhile
    Char.isWhitespace).reverse)

/-- Line 254 of src/app.py: the credential is the stripped UI value when
non-empty, otherwise the stripped `GEMINI_API_KEY` environment value. -/
def resolve_api_key (getenv : String → Option String) (api_key_ui : String) : String :=
  let ui := pystrip api_key_ui
  if ui ≠ "" then ui else pystrip ((getenv "GEMINI_API_KEY").getD "")

/-- Lines 247-251 of src/app.py: the fixed instruction template with the
target language interpolated. -/
def build_prompt (target_language : String) : String :=
  "请将海报中的可读文本专业翻译为" ++ target_language ++ "，保持版式、风格与图像一致。"
    ++ "商品本体、商标、包装上的文字和logo必须保持原样，不要翻译。"
    ++ "输出为合成后的完整海报图像。"

/-- Join with newlines, Python's `"\n".join`. -/
def strJoinNl : List String → String
  | [] => ""
  | [s] => s
  | s :: rest => s ++ "\n" ++ strJoinNl rest

/-- First `n` characters of a string, Python's `s[:n]`. -/
def strTake (s : String) (n : Nat) : String := String.mk (s.data.take n)

/-! ## Rendering JSON for error messages (`json.dumps`)

Only used inside operator-facing message strings; the exact Python
formatting (separators, escaping) is approximated, no claim constrains
the rendered text. -/

mutual

/-- Render a JSON value as text, approximating `json.dumps`. -/
def dumps : JValue → String
  | .str s => "\"" ++ s ++ "\""
  | .num n => toString n
  | .jbool b => if b then "true" else "false"
  | .null => "null"
  | .arr xs => "[" ++ dumpsList xs ++ "]"
  | .obj kvs => "\x7b" ++ dumpsObj kvs ++ "\x7d"

/-- Render array elements, comma separated. -/
def dumpsList : JList → String
  | .nil => ""
  | .cons v .nil => dumps v
  | .cons v t => dumps v ++ ", " ++ dumpsList t

/-- Render object members, comma separated. -/
def dumpsObj : JObj → String
  | .nil => ""
  | .cons k v .nil => "\"" ++ k ++ "\": " ++ dumps v
  | .cons k v t => "\"" ++ k ++ "\": " ++ dumps v ++ ", " ++ dumpsObj t

end

/-! ## Translation client (src/app.py lines 90-121) -/

/-- The transport's reply to one POST: HTTP status code, the JSON-parsed
body when it parses, and the raw body text. -/
structure HttpResp where
  status : Nat
  json : Option JValue
  text : String
deriving DecidableEq

/-- Translation of `call_gemini_edit` (src/app.py lines 90-121), with the
HTTP transport passed in as a function from the credential header and the
request body to a response.  A non-success status, an unparsable body, a
reply without a recognizable image payload, and a base64 decode failure
each fail with the raised message; otherwise the decoded bytes are
returned together with the extracted raw mime value. -/
def call_gemini_edit (transport : String → JValue → HttpResp)
    (image_b64 mime_type prompt api_key : String) :
    Except String (List Nat × JValue) :=
  let body : JValue :=
    .obj (JObj.ofList [("contents", .arr (JList.ofList
      [.obj (JObj.ofList [("parts", .arr (JList.ofList
        [.obj (JObj.ofList [("text", .str prompt)]),
         .obj (JObj.ofList [("inline_data", .obj (JObj.ofList
           [("mime_type", .str mime_type), ("data", .str image_b64)]))])]))])]))])
  let resp := transport api_key body
  if resp.status ≠ 200 then
    let errJ : JValue :=
      match resp.json with
      | some j => j
      | none => .obj (JObj.ofList [("error_text", .str resp.text)])
    .error ("Gemini API error: " ++ toString resp.status ++ " " ++ dumps errJ)
  else
    match resp.json with
    | none => .error "Invalid JSON in response body"
    | some payload =>
      match extract_image_from_response payload with
      | none => .error ("No image data found in response: "
          ++ strTake (dumps payload) 800 ++ "...")
      | some (out_mime, out_b64) =>
        match b64decode out_b64 with
        | none => .error "Failed to decode base64 image"
        | some out_bytes => .ok (out_bytes, out_mime)

/-! ## Usage ledger (src/app.py lines 140-208)

The SQLite store is modelled as two in-memory lists of rows; a row's id
is its index.  Timestamp columns are omitted (pure wall-clock inputs,
never read back by the logic under verification). -/

/-- One row of the `sessions` table; `zip_path` is nullable and stays
null until the finalize update. -/
structure SessionRow where
  language : String
  file_count : Nat
  success_count : Nat
  error_count : Nat
  zip_path : Option String
  duration_ms : Nat
deriving DecidableEq

/-- One row of the `file_logs` table; `out_mime` is declared nullable by
the schema, hence an `Option`. -/
structure FileLogRow where
  session_id : Nat
  filename : String
  status : String
  out_mime : Option String
  message : String
deriving DecidableEq

/-- The persistent store: both tables in insertion order. -/
structure DB where
  sessions : List SessionRow
  file_logs : List FileLogRow
deriving DecidableEq

/-- Translation of `log_session_start` (lines 174-183): insert a session
row with the column defaults (zero counters, null zip path) and return
the new row's id. -/
def log_session_start (db : DB) (language : String) (file_count : Nat) : DB × Nat :=
  (⟨db.sessions ++ [⟨language, file_count, 0, 0, none, 0⟩], db.file_logs⟩,
   db.sessions.length)

/-- Update the element at an index, if present (`UPDATE ... WHERE id=?`). -/
def updateNth : List α → Nat → (α → α) → List α
  | [], _, _ => []
  | x :: xs, 0, f => f x :: xs
  | x :: xs, n + 1, f => x :: updateNth xs n f

/-- Translation of `log_session_finalize` (lines 185-195): fill in the
counters, the zip path and the duration of one session row. -/
def log_session_finalize (db : DB) (session_id success_count error_count : Nat)
    (zip_path : String) (duration_ms : Nat) : DB :=
  ⟨updateNth db.sessions session_id
     (fun r => ⟨r.language, r.file_count, success_count, error_count,
                some zip_path, duration_ms⟩),
   db.file_logs⟩

/-- Translation of `log_file_result` (lines 197-208): append one file
row; the stored mime is `out_mime or ""`, so a missing mime is stored as
the empty string, never as null. -/
def log_file_result (db : DB) (session_id : Nat) (filename status : String)
    (out_mime : Option String) (message : String) : DB :=
  ⟨db.sessions,
   db.file_logs ++ [⟨session_id, filename, status, some (out_mime.getD ""), message⟩]⟩

/-! ## Batch processor (src/app.py lines 242-304) -/

/-- The effectful collaborators of one `process_images` run: the file
system read behind `open(path, "rb")`, the environment variables, the
per-item HTTP transport (item index, credential header, request body),
the timestamped directory created by `ensure_output_dir`, and the
measured wall-clock duration passed to finalize. -/
structure Env where
  fs : String → Except String (List Nat)
  getenv : String → Option String
  transport : Nat → String → JValue → HttpResp
  outDir : String
  durationMs : Nat

/-- The fallible steps of one loop iteration (lines 274-277): read and
encode the file, call the API, and require the extracted mime value to be
a string (a non-string mime raises at `ext_from_mime`'s `mime.lower()`
inside the same `try` block and is caught like any other failure). -/
def tryItem (env : Env) (idx : Nat) (in_path prompt api_key : String) :
    Except String (List Nat × String) :=
  match image_file_to_b64 env.fs in_path with
  | .error e => .error e
  | .ok (mime, img_b64) =>
    match call_gemini_edit (env.transport idx) img_b64 mime prompt api_key with
    | .error e => .error e
    | .ok (bytes_out, out_mime) =>
      match out_mime with
      | .str s => .ok (bytes_out, s)
      | _ => .error "AttributeError: mime_type is not a string"

/-- The mutable state of the per-item loop in `process_images`. -/
structure LoopState where
  db : DB
  gallery : List (String × String)
  logs : List String
  written : List (String × List Nat)
  success_count : Nat
  error_count : Nat
deriving DecidableEq

/-- One iteration of the loop (lines 264-290): on success compute the
output path from the result's mime type, write the file, record a
gallery entry, an OK log line and an OK ledger row; on failure record an
ERR log line and an ERR ledger row carrying the failure's message. -/
def stepItem (env : Env) (prompt api_key out_dir : String) (session_id : Nat)
    (st : LoopState) (idx : Nat) (f : String) : LoopState :=
  let filename := pathName f
  match tryItem env idx f prompt api_key with
  | .ok (bytes_out, out_mime) =>
    let ext := ext_from_mime out_mime
    let out_file := out_dir ++ "/" ++ pathStem filename ++ "_translated" ++ ext
    ⟨log_file_result st.db session_id filename "OK" (some out_mime) "转换成功",
     st.gallery ++ [(out_file, filename ++ " ✅")],
     st.logs ++ ["[OK] " ++ filename ++ " -> " ++ pathName out_file
       ++ " (" ++ out_mime ++ ")"],
     st.written ++ [(out_file, bytes_out)],
     st.success_count + 1, st.error_count⟩
  | .error e =>
    ⟨log_file_result st.db session_id filename "ERR" none e,
     st.gallery,
     st.logs ++ ["[ERR] " ++ filename ++ " -> " ++ e],
     st.written,
     st.success_count, st.error_count + 1⟩

/-- The `for idx, f in enumerate(files, start=1)` loop of
`process_images`, processing items strictly in input order. -/
def loop (env : Env) (prompt api_key out_dir : String) (session_id : Nat) :
    LoopState → Nat → List String → LoopState
  | st, _, [] => st
  | st, idx, f :: rest =>
    loop env prompt api_key out_dir session_id
      (stepItem env prompt api_key out_dir session_id st idx f) (idx + 1) rest

/-- Everything observable from one `process_images` run: the three
returned values (gallery, zip path string, joined log text), the
database state, the files written, and the zip archive as its path and
its entries (arcname, source path). -/
structure RunResult where
  gallery : List (String × String)
  zipPathStr : String
  text : String
  db : DB
  written : List (String × List Nat)
  zipFile : Option (String × List (String × String))
deriving DecidableEq

/-- Translation of `process_images` (src/app.py lines 242-304).  The
gradio-specific extraction of a path from each uploaded file object
(lines 265-271) is collapsed to the path itself, and the progress-bar
calls are dropped (pure UI side effects).  Items are modelled by their
paths. -/
def process_images (env : Env) (db0 : DB) (files : List String)
    (target_language api_key_ui : String) : RunResult :=
  let prompt := build_prompt target_language
  if files = [] then
    ⟨[], "", "请先上传至少一张图片。", db0, [], none⟩
  else
    let api_key := resolve_api_key env.getenv api_key_ui
    if api_key = "" then
      ⟨[], "", "缺少 GEMINI_API_KEY。请在界面中输入或设置环境变量。", db0, [], none⟩
    else
      let out_dir := env.outDir
      let start := log_session_start db0 target_language files.length
      let st := loop env prompt api_key out_dir start.2 ⟨start.1, [], [], [], 0, 0⟩ 1 files
      let out_files := st.gallery.map Prod.fst
      if out_files.length > 0 then
        let zip_name := out_dir ++ "/translated_images.zip"
        ⟨st.gallery, zip_name,
         strJoinNl (st.logs ++ ["打包完成: " ++ zip_name]),
         log_session_finalize st.db start.2 st.success_count st.error_count
           zip_name env.durationMs,
         st.written,
         some (zip_name, out_files.map (fun p => (pathName p, p)))⟩
      else
        ⟨st.gallery, "",
         strJoinNl st.logs,
         log_session_finalize st.db start.2 st.success_count st.error_count
           "" env.durationMs,
         st.written, none⟩

/-! ## Characterization of one run

The functions below give closed forms, one item at a time, for each
component of the loop's output; `loop_spec` proves the loop equal to
them, and `process_images_run` assembles the full run. -/

/-- The output path of a successful item: the run directory, the item's
stem, the `_translated` marker and the extension for the result's mime. -/
def outFileFor (out_dir f out_mime : String) : String :=
  out_dir ++ "/" ++ pathStem (pathName f) ++ "_translated" ++ ext_from_mime out_mime

/-- The ledger row the loop appends for one item. -/
def itemRowSpec (env : Env) (prompt api_key : String) (session_id idx : Nat)
    (f : String) : FileLogRow :=
  match tryItem env idx f prompt api_key with
  | .ok (_, out_mime) => ⟨session_id, pathName f, "OK", some out_mime, "转换成功"⟩
  | .error e => ⟨session_id, pathName f, "ERR", some "", e⟩

/-- All ledger rows the loop appends, one per item, in input order. -/
def rowsSpec (env : Env) (prompt api_key : String) (session_id : Nat) :
    Nat → List String → List FileLogRow
  | _, [] => []
  | idx, f :: rest =>
    itemRowSpec env prompt api_key session_id idx f
      :: rowsSpec env prompt api_key session_id (idx + 1) rest

/-- Gallery entries the loop appends: exactly one per successful item. -/
def gallerySpec (env : Env) (prompt api_key out_dir : String) :
    Nat → List String → List (String × String)
  | _, [] => []
  | idx, f :: rest =>
    (match tryItem env idx f prompt api_key with
     | .ok (_, out_mime) => [(outFileFor out_dir f out_mime, pathName f ++ " ✅")]
     | .error _ => [])
    ++ gallerySpec env prompt api_key out_dir (idx + 1) rest

/-- Output files the loop writes: exactly one per successful item. -/
def writtenSpec (env : Env) (prompt api_key out_dir : String) :
    Nat → List String → List (String × List Nat)
  | _, [] => []
  | idx, f :: rest =>
    (match tryItem env idx f prompt api_key with
     | .ok (bytes_out, out_mime) => [(outFileFor out_dir f out_mime, bytes_out)]
     | .error _ => [])
    ++ writtenSpec env prompt api_key out_dir (idx + 1) rest

/-- Log lines the loop appends, one per item. -/
def logsSpec (env : Env) (prompt api_key out_dir : String) :
    Nat → List String → List String
  | _, [] => []
  | idx, f :: rest =>
    (match tryItem env idx f prompt api_key with
     | .ok (_, out_mime) =>
       "[OK] " ++ pathName f ++ " -> "
         ++ pathName (outFileFor out_dir f out_mime) ++ " (" ++ out_mime ++ ")"
     | .error e => "[ERR] " ++ pathName f ++ " -> " ++ e)
    :: logsSpec env prompt api_key out_dir (idx + 1) rest

/-- Number of items whose per-item pipeline succeeds. -/
def okCount (env : Env) (prompt api_key : String) : Nat → List String → Nat
  | _, [] => 0
  | idx, f :: rest =>
    (match tryItem env idx f prompt api_key with
     | .ok _ => 1
     | .error _ => 0) + okCount env prompt api_key (idx + 1) rest

/-- Number of items whose per-item pipeline fails. -/
def errCount (env : Env) (prompt api_key : String) : Nat → List String → Nat
  | _, [] => 0
  | idx, f :: rest =>
    (match tryItem env idx f prompt api_key with
     | .ok _ => 0
     | .error _ => 1) + errCount env prompt api_key (idx + 1) rest

/-! ## Concrete run environment for the batch witnesses -/

/-- A concrete successful API reply: an `inline_data` node whose payload
`"Bw=="` is the base64 text of the single byte 7. -/
def respW : JValue :=
  .obj (JObj.ofList [("candidates", .arr (JList.ofList
    [.obj (JObj.ofList [("inline_data", .obj (JObj.ofList
      [("mime_type", .str "image/png"), ("data", .str "Bw==")]))])]))])

/-- A concrete run environment: reading `bad.png` fails with `boom`,
every other path holds the bytes `[0, 255, 7]`; the transport always
replies 200 with `respW`. -/
def envW : Env :=
  ⟨fun p => if p = "bad.png" then .error "boom" else .ok [0, 255, 7],
   fun _ => none,
   fun _ _ _ => ⟨200, some respW, ""⟩,
   "outdir", 42⟩

/-! ## Theorems -/

theorem orElseO_assoc (a b c : Option α) :
    orElseO (orElseO a b) c = orElseO a (orElseO b c) := by
  cases a <;> rfl

theorem firstSome_append (f : α → Option β) (l1 l2 : List α) :
    firstSome f (l1 ++ l2) = orElseO (firstSome f l1) (firstSome f l2) := by
  induction l1 with
  | nil => rfl
  | cons x xs ih =>
    simp [firstSome, ih, orElseO_assoc]

theorem firstSome_eq_none (f : α → Option β) (l : List α)
    (h : ∀ x ∈ l, f x = none) : firstSome f l = none := by
  induction l with
  | nil => rfl
  | cons x xs ih =>
    simp only [firstSome, h x (List.mem_cons_self x xs)]
    exact ih fun y hy => h y (List.mem_cons_of_mem x hy)

mutual

/-- The source extractor returns exactly the first pre-order match. -/
theorem walk_eq_firstSome : (t : JValue) → walk t = firstSome matchNode (nodes t)
  | .str _ => rfl
  | .num _ => rfl
  | .jbool _ => rfl
  | .null => rfl
  | .arr xs => by
    simp only [walk, nodes, firstSome, matchNode, orElseO]
    exact walkList_eq_firstSome xs
  | .obj kvs => by
    simp only [walk, nodes, firstSome, matchNode]
    rw [walkObj_eq_firstSome kvs, orElseO_assoc]

/-- The object-values loop returns the first match under the values. -/
theorem walkObj_eq_firstSome : (o : JObj) → walkObj o = firstSome matchNode (nodesObj o)
  | .nil => rfl
  | .cons k v t => by
    simp only [walkObj, nodesObj, firstSome_append]
    rw [walk_eq_firstSome v, walkObj_eq_firstSome t]

/-- The sequence-elements loop returns the first match under the elements. -/
theorem walkList_eq_firstSome : (l : JList) → walkList l = firstSome matchNode (nodesList l)
  | .nil => rfl
  | .cons v t => by
    simp only [walkList, nodesList, firstSome_append]
    rw [walk_eq_firstSome v, walkList_eq_firstSome t]

end

/-- C2: the extractor searches the decoded reply depth-first pre-order
(map values in stored order, sequence elements in index order) and
returns the first node matching shape (a) or shape (b), `none` when no
node qualifies; on the two spec examples it returns the stated payloads
with the `"image/png"` default mime type. -/
theorem extractor_preorder_first_match :
    (∀ t, extract_image_from_response t = firstSome matchNode (nodes t))
    ∧ (∀ t, (∀ n ∈ nodes t, matchNode n = none) →
        extract_image_from_response t = none)
    ∧ extract_image_from_response exampleInline = some (.str "image/png", "XYZ...")
    ∧ extract_image_from_response exampleDataField = some (.str "image/png", longAString) := by
  refine ⟨walk_eq_firstSome, ?_, ?_, ?_⟩
  · intro t h
    rw [extract_image_from_response, walk_eq_firstSome t]
    exact firstSome_eq_none _ _ h
  · rfl
  · rfl

/-- Witness for C2 at concrete inputs: a scalar tree has no qualifying
node and yields `none`; the first spec example yields its inline payload. -/
theorem extractor_preorder_first_match_witness :
    extract_image_from_response (.jbool true) = firstSome matchNode (nodes (.jbool true))
    ∧ extract_image_from_response (.jbool true) = none :=
  ⟨extractor_preorder_first_match.1 (.jbool true),
   extractor_preorder_first_match.2.1 (.jbool true) (by decide)⟩

/-- C9: at a single map node, shape (a) is tested before shape (b): when
the node has an `inline_data` map member with a string `data` field, the
extractor returns the inline payload even if the node also has a long
string `data` field of its own; and an `inline_data` member whose `data`
field is not a string does not match shape (a), so such a node falls
through to shape (b).  Both behaviours are also shown on concrete nodes. -/
theorem inline_data_tested_first :
    (∀ kvs inkvs d,
       JObj.lookup kvs "inline_data" = some (.obj inkvs) →
       JObj.lookup inkvs "data" = some (.str d) →
       walk (.obj kvs)
         = some ((JObj.lookup inkvs "mime_type").getD (.str "image/png"), d))
    ∧ (∀ kvs inkvs w d,
       JObj.lookup kvs "inline_data" = some (.obj inkvs) →
       JObj.lookup inkvs "data" = some w →
       (∀ s, w ≠ .str s) →
       JObj.lookup kvs "data" = some (.str d) →
       d.length > 100 →
       walk (.obj kvs)
         = some ((JObj.lookup kvs "mime_type").getD (.str "image/png"), d))
    ∧ walk exampleBothShapes = some (.str "image/webp", "INLINEPAYLOAD")
    ∧ walk exampleInlineNotString = some (.str "image/png", longAString) := by
  refine ⟨?_, ?_, rfl, rfl⟩
  · intro kvs inkvs d h1 h2
    simp [walk, inlineShape, h1, h2, orElseO]
  · intro kvs inkvs w d h1 h2 hw h3 hlen
    have hinline : inlineShape kvs = none := by
      simp only [inlineShape, h1, h2]
      cases w with
      | str s => exact absurd rfl (hw s)
      | num n => rfl
      | jbool b => rfl
      | null => rfl
      | arr xs => rfl
      | obj o => rfl
    simp [walk, hinline, matchDataField, h3, hlen, orElseO]

/-- Witness for C9 at concrete inputs, applying both general parts. -/
theorem inline_data_tested_first_witness :
    walk exampleBothShapes
      = some ((JObj.lookup (JObj.ofList
          [("data", .str "INLINEPAYLOAD"), ("mime_type", .str "image/webp")])
          "mime_type").getD (.str "image/png"), "INLINEPAYLOAD")
    ∧ walk exampleInlineNotString
      = some ((JObj.lookup (JObj.ofList
          [("inline_data", .obj (JObj.ofList [("data", .num 5)])),
           ("data", .str longAString)]) "mime_type").getD (.str "image/png"),
          longAString) :=
  ⟨inline_data_tested_first.1
     (JObj.ofList
       [("data", .str longAString),
        ("inline_data", .obj (JObj.ofList
          [("data", .str "INLINEPAYLOAD"), ("mime_type", .str "image/webp")]))])
     (JObj.ofList [("data", .str "INLINEPAYLOAD"), ("mime_type", .str "image/webp")])
     "INLINEPAYLOAD" (by decide) (by decide),
   inline_data_tested_first.2.1
     (JObj.ofList
       [("inline_data", .obj (JObj.ofList [("data", .num 5)])),
        ("data", .str longAString)])
     (JObj.ofList [("data", .num 5)])
     (.num 5) longAString (by decide) (by decide)
     (fun s h => by cases h) (by decide) (by decide)⟩

theorem decChar_encChar : ∀ n < 64, decChar (encChar n) = some n := by decide

theorem encChar_ne_pad : ∀ n < 64, encChar n ≠ '=' := by decide

/-- Round trip at the character-list level. -/
theorem b64decodeChars_encodeChars :
    ∀ bs : List Nat, (∀ b ∈ bs, b < 256) →
      b64decodeChars (b64encodeChars bs) = some bs
  | [], _ => rfl
  | [a], h => by
    have ha : a < 256 := h a (by simp)
    have h1 : a / 4 < 64 := by omega
    have h2 : a % 4 * 16 < 64 := by omega
    simp only [b64encodeChars, b64decodeChars, decChar_encChar _ h1, decChar_encChar _ h2]
    simp
    omega
  | [a, b], h => by
    have ha : a < 256 := h a (by simp)
    have hb : b < 256 := h b (by simp)
    have h1 : a / 4 < 64 := by omega
    have h2 : a % 4 * 16 + b / 16 < 64 := by omega
    have h3 : b % 16 * 4 < 64 := by omega
    simp only [b64encodeChars, b64decodeChars, decChar_encChar _ h1, decChar_encChar _ h2,
      decChar_encChar _ h3]
    simp [encChar_ne_pad _ h3]
    omega
  | a :: b :: c :: rest, h => by
    have ha : a < 256 := h a (by simp)
    have hb : b < 256 := h b (by simp)
    have hc : c < 256 := h c (by simp)
    have ih := b64decodeChars_encodeChars rest
      (fun x hx => h x (List.mem_cons_of_mem _ (List.mem_cons_of_mem _
        (List.mem_cons_of_mem _ hx))))
    have h1 : a / 4 < 64 := by omega
    have h2 : a % 4 * 16 + b / 16 < 64 := by omega
    have h3 : b % 16 * 4 + c / 64 < 64 := by omega
    have h4 : c % 64 < 64 := by omega
    simp only [b64encodeChars, b64decodeChars, decChar_encChar _ h1, decChar_encChar _ h2,
      decChar_encChar _ h3, decChar_encChar _ h4]
    simp [encChar_ne_pad _ h3, encChar_ne_pad _ h4, ih]
    omega

/-- C8: `guess_mime_type` is a total function that returns the inferred
mime type exactly when inference succeeds with top-level category
`image`, and `"image/jpeg"` when inference fails or the type is not an
image; in particular on the two spec examples. -/
theorem guess_mime_type_total_spec :
    (∀ p mt, mimetypes_guess_type p = some mt → strStartsWith mt "image/" = true →
       guess_mime_type p = mt)
    ∧ (∀ p, mimetypes_guess_type p = none → guess_mime_type p = "image/jpeg")
    ∧ (∀ p mt, mimetypes_guess_type p = some mt → strStartsWith mt "image/" = false →
       guess_mime_type p = "image/jpeg")
    ∧ guess_mime_type "poster.png" = "image/png"
    ∧ guess_mime_type "file.unknownext" = "image/jpeg" := by
  refine ⟨?_, ?_, ?_, by decide, by decide⟩
  · intro p mt h hs
    simp [guess_mime_type, h, hs]
  · intro p h
    simp [guess_mime_type, h]
  · intro p mt h hs
    simp [guess_mime_type, h, hs]

/-- Witness for C8 at concrete paths: an image extension, an unknown
extension, and a known non-image extension. -/
theorem guess_mime_type_total_spec_witness :
    guess_mime_type "poster.png" = "image/png"
    ∧ guess_mime_type "file.unknownext" = "image/jpeg"
    ∧ guess_mime_type "notes.txt" = "image/jpeg" :=
  ⟨guess_mime_type_total_spec.1 "poster.png" "image/png" (by decide) (by decide),
   guess_mime_type_total_spec.2.1 "file.unknownext" (by decide),
   guess_mime_type_total_spec.2.2.1 "notes.txt" "text/plain" (by decide) (by decide)⟩

/-- C6: decoding the base64 text produced by the image-encoding step
yields exactly the original bytes, for arbitrary binary content. -/
theorem b64_roundtrip :
    ∀ (fs : String → Except String (List Nat)) (p : String) (content : List Nat),
      fs p = .ok content → (∀ b ∈ content, b < 256) →
      image_file_to_b64 fs p = .ok (guess_mime_type p, b64encode content)
      ∧ b64decode (b64encode content) = some content := by
  intro fs p content hfs hb
  refine ⟨by simp [image_file_to_b64, hfs], ?_⟩
  show b64decodeChars (b64encodeChars content) = some content
  exact b64decodeChars_encodeChars content hb

/-- Witness for C6 on a concrete file content of every residue mod 3. -/
theorem b64_roundtrip_witness :
    image_file_to_b64 (fun _ => .ok [0, 255, 7, 128]) "poster.png"
      = .ok (guess_mime_type "poster.png", b64encode [0, 255, 7, 128])
    ∧ b64decode (b64encode [0, 255, 7, 128]) = some [0, 255, 7, 128] :=
  b64_roundtrip (fun _ => .ok [0, 255, 7, 128]) "poster.png" [0, 255, 7, 128]
    rfl (by decide)

/-- Every item lands in exactly one of the two counters. -/
theorem okCount_add_errCount (env : Env) (prompt api_key : String) :
    ∀ (files : List String) (idx : Nat),
      okCount env prompt api_key idx files + errCount env prompt api_key idx files
        = files.length
  | [], _ => rfl
  | f :: rest, idx => by
    have ih := okCount_add_errCount env prompt api_key rest (idx + 1)
    cases htry : tryItem env idx f prompt api_key with
    | ok pr => simp [okCount, errCount, htry, List.length_cons]; omega
    | error e => simp [okCount, errCount, htry, List.length_cons]; omega

/-- The loop's final state, component by component. -/
theorem loop_spec (env : Env) (prompt api_key out_dir : String) (session_id : Nat) :
    ∀ (files : List String) (st : LoopState) (idx : Nat),
      loop env prompt api_key out_dir session_id st idx files =
        ⟨⟨st.db.sessions,
          st.db.file_logs ++ rowsSpec env prompt api_key session_id idx files⟩,
         st.gallery ++ gallerySpec env prompt api_key out_dir idx files,
         st.logs ++ logsSpec env prompt api_key out_dir idx files,
         st.written ++ writtenSpec env prompt api_key out_dir idx files,
         st.success_count + okCount env prompt api_key idx files,
         st.error_count + errCount env prompt api_key idx files⟩
  | [], st, idx => by
    simp [loop, rowsSpec, gallerySpec, logsSpec, writtenSpec, okCount, errCount]
  | f :: rest, st, idx => by
    have ih := loop_spec env prompt api_key out_dir session_id rest
      (stepItem env prompt api_key out_dir session_id st idx f) (idx + 1)
    rw [loop, ih]
    cases htry : tryItem env idx f prompt api_key with
    | ok pr =>
      obtain ⟨bytes_out, out_mime⟩ := pr
      simp [stepItem, htry, log_file_result, rowsSpec, itemRowSpec, gallerySpec,
        logsSpec, writtenSpec, okCount, errCount, outFileFor, List.append_assoc]
      omega
    | error e =>
      simp [stepItem, htry, log_file_result, rowsSpec, itemRowSpec, gallerySpec,
        logsSpec, writtenSpec, okCount, errCount, List.append_assoc]
      omega

/-- Updating just past the end of a prefix hits the appended element. -/
theorem updateNth_append_length (l : List α) (x : α) (f : α → α) :
    updateNth (l ++ [x]) l.length f = l ++ [f x] := by
  induction l with
  | nil => rfl
  | cons y ys ih => simp [updateNth, ih]

/-- The full run on a non-empty item list with a resolvable credential:
every output component in closed form. -/
theorem process_images_run (env : Env) (db0 : DB) (files : List String)
    (lang key : String) (hne : files ≠ [])
    (hkey : resolve_api_key env.getenv key ≠ "") :
    process_images env db0 files lang key =
      ⟨gallerySpec env (build_prompt lang) (resolve_api_key env.getenv key) env.outDir 1 files,
       (if 0 < (gallerySpec env (build_prompt lang) (resolve_api_key env.getenv key)
           env.outDir 1 files).length
        then env.outDir ++ "/translated_images.zip" else ""),
       (if 0 < (gallerySpec env (build_prompt lang) (resolve_api_key env.getenv key)
           env.outDir 1 files).length
        then strJoinNl (logsSpec env (build_prompt lang) (resolve_api_key env.getenv key)
            env.outDir 1 files
          ++ ["打包完成: " ++ (env.outDir ++ "/translated_images.zip")])
        else strJoinNl (logsSpec env (build_prompt lang) (resolve_api_key env.getenv key)
            env.outDir 1 files)),
       ⟨db0.sessions ++
          [⟨lang, files.length,
            okCount env (build_prompt lang) (resolve_api_key env.getenv key) 1 files,
            errCount env (build_prompt lang) (resolve_api_key env.getenv key) 1 files,
            some (if 0 < (gallerySpec env (build_prompt lang)
                (resolve_api_key env.getenv key) env.outDir 1 files).length
              then env.outDir ++ "/translated_images.zip" else ""),
            env.durationMs⟩],
        db0.file_logs ++ rowsSpec env (build_prompt lang)
          (resolve_api_key env.getenv key) db0.sessions.length 1 files⟩,
       writtenSpec env (build_prompt lang) (resolve_api_key env.getenv key)
         env.outDir 1 files,
       (if 0 < (gallerySpec env (build_prompt lang) (resolve_api_key env.getenv key)
           env.outDir 1 files).length
        then some (env.outDir ++ "/translated_images.zip",
          ((gallerySpec env (build_prompt lang) (resolve_api_key env.getenv key)
              env.outDir 1 files).map Prod.fst).map (fun p => (pathName p, p)))
        else none)⟩ := by
  simp only [process_images, if_neg hne, if_neg hkey, log_session_start, loop_spec,
    List.nil_append, Nat.zero_add]
  by_cases hg : 0 < (gallerySpec env (build_prompt lang)
      (resolve_api_key env.getenv key) env.outDir 1 files).length
  · simp [hg, log_session_finalize, updateNth_append_length]
  · simp only [List.length_map, gt_iff_lt, hg, if_false]
    simp [log_session_finalize, updateNth_append_length]

/-- One ledger row is appended per item. -/
theorem rowsSpec_length (env : Env) (p k : String) (sid : Nat) :
    ∀ (files : List String) (idx : Nat),
      (rowsSpec env p k sid idx files).length = files.length
  | [], _ => rfl
  | f :: rest, idx => by
    simp [rowsSpec, rowsSpec_length env p k sid rest (idx + 1)]

/-- The row appended for the item at index `i` (0-based; the loop counter
starts at `idx`). -/
theorem rowsSpec_get (env : Env) (p k : String) (sid : Nat) :
    ∀ (files : List String) (idx i : Nat) (f : String),
      files.get? i = some f →
      (rowsSpec env p k sid idx files).get? i
        = some (itemRowSpec env p k sid (idx + i) f)
  | [], _, i, f => by simp
  | g :: rest, idx, 0, f => by
    intro h
    simp at h
    subst h
    rfl
  | g :: rest, idx, i + 1, f => by
    intro h
    have harr : idx + (i + 1) = idx + 1 + i := by omega
    rw [show (rowsSpec env p k sid idx (g :: rest)).get? (i + 1)
          = (rowsSpec env p k sid (idx + 1) rest).get? i from rfl, harr]
    exact rowsSpec_get env p k sid rest (idx + 1) i f h

/-- Exactly one output file is written per successful item. -/
theorem writtenSpec_length (env : Env) (p k o : String) :
    ∀ (files : List String) (idx : Nat),
      (writtenSpec env p k o idx files).length = okCount env p k idx files
  | [], _ => rfl
  | f :: rest, idx => by
    have ih := writtenSpec_length env p k o rest (idx + 1)
    cases htry : tryItem env idx f p k with
    | ok pr => simp [writtenSpec, okCount, htry, ih]; omega
    | error e => simp [writtenSpec, okCount, htry, ih]

/-- Exactly one gallery entry is recorded per successful item. -/
theorem gallerySpec_length (env : Env) (p k o : String) :
    ∀ (files : List String) (idx : Nat),
      (gallerySpec env p k o idx files).length = okCount env p k idx files
  | [], _ => rfl
  | f :: rest, idx => by
    have ih := gallerySpec_length env p k o rest (idx + 1)
    cases htry : tryItem env idx f p k with
    | ok pr => simp [gallerySpec, okCount, htry, ih]; omega
    | error e => simp [gallerySpec, okCount, htry, ih]

/-- The gallery paths are exactly the written file paths, in order. -/
theorem gallerySpec_fst_eq_writtenSpec_fst (env : Env) (p k o : String) :
    ∀ (files : List String) (idx : Nat),
      (gallerySpec env p k o idx files).map Prod.fst
        = (writtenSpec env p k o idx files).map Prod.fst
  | [], _ => rfl
  | f :: rest, idx => by
    have ih := gallerySpec_fst_eq_writtenSpec_fst env p k o rest (idx + 1)
    cases htry : tryItem env idx f p k with
    | ok pr =>
      obtain ⟨b, m⟩ := pr
      simp [gallerySpec, writtenSpec, htry, ih]
    | error e => simp [gallerySpec, writtenSpec, htry, ih]

/-- A successful item's output file appears among the written files. -/
theorem writtenSpec_mem (env : Env) (p k o : String) :
    ∀ (files : List String) (idx i : Nat) (f : String) (bytes : List Nat) (mime : String),
      files.get? i = some f →
      tryItem env (idx + i) f p k = .ok (bytes, mime) →
      (outFileFor o f mime, bytes) ∈ writtenSpec env p k o idx files
  | [], _, i, f, bytes, mime => by simp
  | g :: rest, idx, 0, f, bytes, mime => by
    intro h htry
    simp at h
    subst h
    rw [Nat.add_zero] at htry
    simp [writtenSpec, htry]
  | g :: rest, idx, i + 1, f, bytes, mime => by
    intro h htry
    have harr : idx + (i + 1) = idx + 1 + i := by omega
    rw [harr] at htry
    have hmem := writtenSpec_mem env p k o rest (idx + 1) i f bytes mime h htry
    simp only [writtenSpec]
    exact List.mem_append_right _ hmem

/-- A successful item's gallery entry appears in the gallery. -/
theorem gallerySpec_mem (env : Env) (p k o : String) :
    ∀ (files : List String) (idx i : Nat) (f : String) (bytes : List Nat) (mime : String),
      files.get? i = some f →
      tryItem env (idx + i) f p k = .ok (bytes, mime) →
      (outFileFor o f mime, pathName f ++ " ✅") ∈ gallerySpec env p k o idx files
  | [], _, i, f, bytes, mime => by simp
  | g :: rest, idx, 0, f, bytes, mime => by
    intro h htry
    simp at h
    subst h
    rw [Nat.add_zero] at htry
    simp [gallerySpec, htry]
  | g :: rest, idx, i + 1, f, bytes, mime => by
    intro h htry
    have harr : idx + (i + 1) = idx + 1 + i := by omega
    rw [harr] at htry
    have hmem := gallerySpec_mem env p k o rest (idx + 1) i f bytes mime h htry
    simp only [gallerySpec]
    exact List.mem_append_right _ hmem

/-- Every appended ledger row stores a non-null mime, and every ERR row
stores the empty string in place of the missing mime. -/
theorem rowsSpec_out_mime (env : Env) (p k : String) (sid : Nat) :
    ∀ (files : List String) (idx : Nat) (r : FileLogRow),
      r ∈ rowsSpec env p k sid idx files →
      r.out_mime ≠ none ∧ (r.status = "ERR" → r.out_mime = some "")
  | [], _, r => by simp [rowsSpec]
  | f :: rest, idx, r => by
    intro hr
    simp only [rowsSpec, List.mem_cons] at hr
    rcases hr with hr | hr
    · subst hr
      cases htry : tryItem env idx f p k with
      | ok pr =>
        obtain ⟨b, m⟩ := pr
        constructor
        · simp [itemRowSpec, htry]
        · intro hst
          simp only [itemRowSpec, htry] at hst
          exact absurd hst (by decide)
      | error e =>
        constructor
        · simp [itemRowSpec, htry]
        · intro hst
          simp [itemRowSpec, htry]
    · exact rowsSpec_out_mime env p k sid rest (idx + 1) r hr

/-- C1: every run of the batch processor on a non-empty item list with a
resolvable credential finalizes the session row with
`success_count + error_count = file_count`, where `file_count` is the
number of input items; each item increments exactly one of the two
counters (they are the counts of successful and of failed items). -/
theorem session_counts_invariant (env : Env) (db0 : DB) (files : List String)
    (lang key : String) (hne : files ≠ [])
    (hkey : resolve_api_key env.getenv key ≠ "") :
    ∃ row : SessionRow,
      (process_images env db0 files lang key).db.sessions = db0.sessions ++ [row]
      ∧ row.file_count = files.length
      ∧ row.success_count
          = okCount env (build_prompt lang) (resolve_api_key env.getenv key) 1 files
      ∧ row.error_count
          = errCount env (build_prompt lang) (resolve_api_key env.getenv key) 1 files
      ∧ row.success_count + row.error_count = row.file_count := by
  rw [process_images_run env db0 files lang key hne hkey]
  exact ⟨_, rfl, rfl, rfl, rfl,
    okCount_add_errCount env (build_prompt lang) (resolve_api_key env.getenv key) files 1⟩

/-- Witness for C1: one successful and one failing item, counters 1 and 1
summing to the file count 2. -/
theorem session_counts_invariant_witness :
    ∃ row : SessionRow,
      (process_images envW ⟨[], []⟩ ["good.png", "bad.png"] "英语" "k").db.sessions
        = ([] : List SessionRow) ++ [row]
      ∧ row.file_count = (["good.png", "bad.png"] : List String).length
      ∧ row.success_count
          = okCount envW (build_prompt "英语") (resolve_api_key envW.getenv "k") 1
              ["good.png", "bad.png"]
      ∧ row.error_count
          = errCount envW (build_prompt "英语") (resolve_api_key envW.getenv "k") 1
              ["good.png", "bad.png"]
      ∧ row.success_count + row.error_count = row.file_count :=
  session_counts_invariant envW ⟨[], []⟩ ["good.png", "bad.png"] "英语" "k"
    (by decide) (by decide)

/-- C3: an empty item list, or a credential that is empty after resolving
the explicit input with the environment-variable fallback, returns an
immediate user-facing message; no session row is created, no file row is
written, the ledger is exactly the prior state. -/
theorem short_circuits_leave_ledger_untouched (env : Env) (db0 : DB)
    (files : List String) (lang key : String) :
    (files = [] →
      process_images env db0 files lang key
        = ⟨[], "", "请先上传至少一张图片。", db0, [], none⟩)
    ∧ (files ≠ [] → resolve_api_key env.getenv key = "" →
      process_images env db0 files lang key
        = ⟨[], "", "缺少 GEMINI_API_KEY。请在界面中输入或设置环境变量。", db0, [], none⟩) := by
  constructor
  · intro h
    simp [process_images, h]
  · intro hne hk
    simp [process_images, hne, hk]

/-- Witness for C3: the empty upload list, and a blank credential with no
environment fallback, each short-circuit against a non-empty ledger. -/
theorem short_circuits_leave_ledger_untouched_witness :
    process_images envW ⟨[], [⟨0, "old.png", "OK", some "image/png", "m"⟩]⟩ []
        "英语" "k"
      = ⟨[], "", "请先上传至少一张图片。",
         ⟨[], [⟨0, "old.png", "OK", some "image/png", "m"⟩]⟩, [], none⟩
    ∧ process_images envW ⟨[], []⟩ ["good.png"] "英语" "  "
      = ⟨[], "", "缺少 GEMINI_API_KEY。请在界面中输入或设置环境变量。", ⟨[], []⟩, [], none⟩ :=
  ⟨(short_circuits_leave_ledger_untouched envW
      ⟨[], [⟨0, "old.png", "OK", some "image/png", "m"⟩]⟩ [] "英语" "k").1 rfl,
   (short_circuits_leave_ledger_untouched envW ⟨[], []⟩ ["good.png"] "英语" "  ").2
     (by decide) (by decide)⟩

/-- C4: for every item whose per-item step fails (file read, HTTP call,
extraction, or base64 decode), exactly one ERR ledger row carrying the
failure's message is appended (one row per item, and the failing item's
row is that ERR row), no output file is written for it (output files are
exactly one per successful item), the batch continues with the remaining
items (every item has a row), and the session is still finalized. -/
theorem per_item_failure_policy (env : Env) (db0 : DB) (files : List String)
    (lang key : String) (hne : files ≠ [])
    (hkey : resolve_api_key env.getenv key ≠ "") :
    (process_images env db0 files lang key).db.file_logs
      = db0.file_logs ++ rowsSpec env (build_prompt lang)
          (resolve_api_key env.getenv key) db0.sessions.length 1 files
    ∧ (rowsSpec env (build_prompt lang) (resolve_api_key env.getenv key)
        db0.sessions.length 1 files).length = files.length
    ∧ (∀ i f e, files.get? i = some f →
        tryItem env (1 + i) f (build_prompt lang) (resolve_api_key env.getenv key)
          = .error e →
        (rowsSpec env (build_prompt lang) (resolve_api_key env.getenv key)
            db0.sessions.length 1 files).get? i
          = some ⟨db0.sessions.length, pathName f, "ERR", some "", e⟩)
    ∧ (process_images env db0 files lang key).written
        = writtenSpec env (build_prompt lang) (resolve_api_key env.getenv key)
            env.outDir 1 files
    ∧ (writtenSpec env (build_prompt lang) (resolve_api_key env.getenv key)
        env.outDir 1 files).length
        = okCount env (build_prompt lang) (resolve_api_key env.getenv key) 1 files
    ∧ (∃ row : SessionRow,
        (process_images env db0 files lang key).db.sessions = db0.sessions ++ [row]
        ∧ row.zip_path ≠ none
        ∧ row.success_count + row.error_count = files.length) := by
  refine ⟨?_,
    rowsSpec_length env (build_prompt lang) (resolve_api_key env.getenv key)
      db0.sessions.length files 1,
    ?_, ?_,
    writtenSpec_length env (build_prompt lang) (resolve_api_key env.getenv key)
      env.outDir files 1, ?_⟩
  · rw [process_images_run env db0 files lang key hne hkey]
  · intro i f e hget htry
    rw [rowsSpec_get env (build_prompt lang) (resolve_api_key env.getenv key)
      db0.sessions.length files 1 i f hget]
    simp [itemRowSpec, htry]
  · rw [process_images_run env db0 files lang key hne hkey]
  · rw [process_images_run env db0 files lang key hne hkey]
    exact ⟨_, rfl, by simp,
      okCount_add_errCount env (build_prompt lang) (resolve_api_key env.getenv key) files 1⟩

/-- Witness for C4: in a two-item batch whose second item's file read
fails, the second row is the ERR row carrying `boom`, and the written
files are exactly those of the successful items. -/
theorem per_item_failure_policy_witness :
    (rowsSpec envW (build_prompt "英语") (resolve_api_key envW.getenv "k") 0 1
        ["good.png", "bad.png"]).get? 1
      = some ⟨0, "bad.png", "ERR", some "", "boom"⟩
    ∧ (process_images envW ⟨[], []⟩ ["good.png", "bad.png"] "英语" "k").written
      = writtenSpec envW (build_prompt "英语") (resolve_api_key envW.getenv "k")
          "outdir" 1 ["good.png", "bad.png"] := by
  have h := per_item_failure_policy envW ⟨[], []⟩ ["good.png", "bad.png"] "英语" "k"
    (by decide) (by decide)
  exact ⟨h.2.2.1 1 "bad.png" "boom" rfl rfl, h.2.2.2.1⟩

/-- C5: for every item where the encode step succeeds and the translation
call succeeds with a (string) mime type, exactly one OK ledger row and
exactly one output file are produced (one row per item, one file and one
gallery entry per successful item), the output path is
`<outputDir>/<stem>_translated<ext>` with `ext = ext_from_mime mime`, and
the gallery entry pairs that path with the filename plus a success
marker. -/
theorem per_item_success_policy (env : Env) (db0 : DB) (files : List String)
    (lang key : String) (hne : files ≠ [])
    (hkey : resolve_api_key env.getenv key ≠ "") :
    (process_images env db0 files lang key).db.file_logs
      = db0.file_logs ++ rowsSpec env (build_prompt lang)
          (resolve_api_key env.getenv key) db0.sessions.length 1 files
    ∧ (rowsSpec env (build_prompt lang) (resolve_api_key env.getenv key)
        db0.sessions.length 1 files).length = files.length
    ∧ (process_images env db0 files lang key).written.length
        = okCount env (build_prompt lang) (resolve_api_key env.getenv key) 1 files
    ∧ (process_images env db0 files lang key).gallery.length
        = okCount env (build_prompt lang) (resolve_api_key env.getenv key) 1 files
    ∧ (∀ i f bytes mime, files.get? i = some f →
        tryItem env (1 + i) f (build_prompt lang) (resolve_api_key env.getenv key)
          = .ok (bytes, mime) →
        (rowsSpec env (build_prompt lang) (resolve_api_key env.getenv key)
            db0.sessions.length 1 files).get? i
          = some ⟨db0.sessions.length, pathName f, "OK", some mime, "转换成功"⟩
        ∧ (env.outDir ++ "/" ++ pathStem (pathName f) ++ "_translated"
             ++ ext_from_mime mime, bytes)
            ∈ (process_images env db0 files lang key).written
        ∧ (env.outDir ++ "/" ++ pathStem (pathName f) ++ "_translated"
             ++ ext_from_mime mime, pathName f ++ " ✅")
            ∈ (process_images env db0 files lang key).gallery) := by
  refine ⟨?_,
    rowsSpec_length env (build_prompt lang) (resolve_api_key env.getenv key)
      db0.sessions.length files 1, ?_, ?_, ?_⟩
  · rw [process_images_run env db0 files lang key hne hkey]
  · rw [process_images_run env db0 files lang key hne hkey]
    exact writtenSpec_length env (build_prompt lang) (resolve_api_key env.getenv key)
      env.outDir files 1
  · rw [process_images_run env db0 files lang key hne hkey]
    exact gallerySpec_length env (build_prompt lang) (resolve_api_key env.getenv key)
      env.outDir files 1
  · intro i f bytes mime hget htry
    refine ⟨?_, ?_, ?_⟩
    · rw [rowsSpec_get env (build_prompt lang) (resolve_api_key env.getenv key)
        db0.sessions.length files 1 i f hget]
      simp [itemRowSpec, htry]
    · rw [process_images_run env db0 files lang key hne hkey]
      exact writtenSpec_mem env (build_prompt lang) (resolve_api_key env.getenv key)
        env.outDir files 1 i f bytes mime hget htry
    · rw [process_images_run env db0 files lang key hne hkey]
      exact gallerySpec_mem env (build_prompt lang) (resolve_api_key env.getenv key)
        env.outDir files 1 i f bytes mime hget htry

/-- Witness for C5: the successful first item of the two-item batch gets
its OK row, its written output file with the mime-derived extension, and
its gallery entry. -/
theorem per_item_success_policy_witness :
    (rowsSpec envW (build_prompt "英语") (resolve_api_key envW.getenv "k") 0 1
        ["good.png", "bad.png"]).get? 0
      = some ⟨0, "good.png", "OK", some "image/png", "转换成功"⟩
    ∧ ("outdir" ++ "/" ++ pathStem (pathName "good.png") ++ "_translated"
         ++ ext_from_mime "image/png", [7])
        ∈ (process_images envW ⟨[], []⟩ ["good.png", "bad.png"] "英语" "k").written
    ∧ ("outdir" ++ "/" ++ pathStem (pathName "good.png") ++ "_translated"
         ++ ext_from_mime "image/png", pathName "good.png" ++ " ✅")
        ∈ (process_images envW ⟨[], []⟩ ["good.png", "bad.png"] "英语" "k").gallery := by
  have h := per_item_success_policy envW ⟨[], []⟩ ["good.png", "bad.png"] "英语" "k"
    (by decide) (by decide)
  exact h.2.2.2.2 0 "good.png" [7] "image/png" rfl rfl

/-- C7: when at least one item succeeded, the batch packages exactly the
successful output files into the single deterministically named archive
`<outputDir>/translated_images.zip`, flat, one entry per file keyed by
the file's base name, and records its path in the session row; when zero
items succeeded the archive path is empty, no archive exists, and the
session still finalizes with `success_count = 0` and `error_count = N`. -/
theorem zip_packaging (env : Env) (db0 : DB) (files : List String)
    (lang key : String) (hne : files ≠ [])
    (hkey : resolve_api_key env.getenv key ≠ "") :
    (0 < okCount env (build_prompt lang) (resolve_api_key env.getenv key) 1 files →
      (process_images env db0 files lang key).zipPathStr
        = env.outDir ++ "/translated_images.zip"
      ∧ (process_images env db0 files lang key).zipFile
        = some (env.outDir ++ "/translated_images.zip",
            ((process_images env db0 files lang key).written.map Prod.fst).map
              (fun p => (pathName p, p)))
      ∧ (process_images env db0 files lang key).written.length
          = okCount env (build_prompt lang) (resolve_api_key env.getenv key) 1 files
      ∧ (∃ row : SessionRow,
          (process_images env db0 files lang key).db.sessions = db0.sessions ++ [row]
          ∧ row.zip_path = some (env.outDir ++ "/translated_images.zip")))
    ∧ (okCount env (build_prompt lang) (resolve_api_key env.getenv key) 1 files = 0 →
      (process_images env db0 files lang key).zipPathStr = ""
      ∧ (process_images env db0 files lang key).zipFile = none
      ∧ (∃ row : SessionRow,
          (process_images env db0 files lang key).db.sessions = db0.sessions ++ [row]
          ∧ row.success_count = 0 ∧ row.error_count = files.length
          ∧ row.zip_path = some "")) := by
  have hlen := gallerySpec_length env (build_prompt lang)
    (resolve_api_key env.getenv key) env.outDir files 1
  have hsum := okCount_add_errCount env (build_prompt lang)
    (resolve_api_key env.getenv key) files 1
  rw [process_images_run env db0 files lang key hne hkey]
  constructor
  · intro hok
    have hg : 0 < (gallerySpec env (build_prompt lang)
        (resolve_api_key env.getenv key) env.outDir 1 files).length := by
      rw [hlen]; exact hok
    refine ⟨by simp [hg], ?_, ?_, ⟨_, rfl, by simp [hg]⟩⟩
    · simp only [hg, if_pos]
      rw [gallerySpec_fst_eq_writtenSpec_fst env (build_prompt lang)
        (resolve_api_key env.getenv key) env.outDir files 1]
    · simp only
      exact writtenSpec_length env (build_prompt lang)
        (resolve_api_key env.getenv key) env.outDir files 1
  · intro hzero
    have hg : ¬ 0 < (gallerySpec env (build_prompt lang)
        (resolve_api_key env.getenv key) env.outDir 1 files).length := by
      rw [hlen, hzero]; omega
    refine ⟨by simp [hg], by simp [hg],
      ⟨_, rfl, hzero,
       by show errCount env (build_prompt lang) (resolve_api_key env.getenv key) 1 files
            = files.length
          omega,
       by simp [hg]⟩⟩

/-- Witness for C7, both branches: the mixed batch (one success) packages
its one output file; the all-failing batch has an empty archive path and
finalizes with zero successes. -/
theorem zip_packaging_witness :
    ((process_images envW ⟨[], []⟩ ["good.png", "bad.png"] "英语" "k").zipPathStr
      = "outdir" ++ "/translated_images.zip"
    ∧ (process_images envW ⟨[], []⟩ ["good.png", "bad.png"] "英语" "k").zipFile
      = some ("outdir" ++ "/translated_images.zip",
          ((process_images envW ⟨[], []⟩ ["good.png", "bad.png"] "英语" "k").written.map
            Prod.fst).map (fun p => (pathName p, p))))
    ∧ ((process_images envW ⟨[], []⟩ ["bad.png"] "英语" "k").zipPathStr = ""
    ∧ (process_images envW ⟨[], []⟩ ["bad.png"] "英语" "k").zipFile = none) := by
  have h1 := (zip_packaging envW ⟨[], []⟩ ["good.png", "bad.png"] "英语" "k"
    (by decide) (by decide)).1 (by decide)
  have h2 := (zip_packaging envW ⟨[], []⟩ ["bad.png"] "英语" "k"
    (by decide) (by decide)).2 (by decide)
  exact ⟨⟨h1.1, h1.2.1⟩, ⟨h2.1, h2.2.1⟩⟩

/-- C10: every file row ever appended to the ledger by a run has a
non-null `out_mime` column (the schema declares it nullable, hence the
`Option`): OK rows store the result mime, and ERR rows — which supply no
mime — store the empty string `""` instead of null. -/
theorem ledger_out_mime_never_null (env : Env) (db0 : DB) (files : List String)
    (lang key : String) :
    ∀ r ∈ (process_images env db0 files lang key).db.file_logs,
      r ∈ db0.file_logs
      ∨ (r.out_mime ≠ none ∧ (r.status = "ERR" → r.out_mime = some "")) := by
  intro r hr
  by_cases hne : files = []
  · left
    simp [process_images, hne] at hr
    exact hr
  · by_cases hk : resolve_api_key env.getenv key = ""
    · left
      simp [process_images, hne, hk] at hr
      exact hr
    · rw [process_images_run env db0 files lang key hne hk] at hr
      simp only [List.mem_append] at hr
      rcases hr with hr | hr
      · exact Or.inl hr
      · exact Or.inr (rowsSpec_out_mime env (build_prompt lang)
          (resolve_api_key env.getenv key) db0.sessions.length files 1 r hr)

/-- Witness for C10: the ERR row of the mixed batch stores `some ""`,
never null. -/
theorem ledger_out_mime_never_null_witness :
    (⟨0, "bad.png", "ERR", some "", "boom"⟩ : FileLogRow) ∈ ([] : List FileLogRow)
    ∨ ((some "" : Option String) ≠ none
       ∧ (("ERR" : String) = "ERR" → (some "" : Option String) = some "")) := by
  have h := ledger_out_mime_never_null envW ⟨[], []⟩ ["good.png", "bad.png"] "英语" "k"
    ⟨0, "bad.png", "ERR", some "", "boom"⟩ (by decide)
  exact h

end ImageTranslate

